import Mathlib

/-!
Verification of `reqwire/scaffold.py` against its specification.

The Python module is shallowly embedded below.  Strings are modelled as
Lean `String` (a wrapper around `List Char`), and all operations on them
are implemented over `String.data` with structural recursion so that every
definition is executable and kernel-reducible.  The filesystem is modelled
as an association list from paths to file contents, threaded explicitly
through the operations that read or write files.  Collaborators of the
module that live outside `scaffold.py` (the manifest parser, the specifier
resolver, the version intersector and the requirements writer from
`reqwire.helpers.requirements`) are modelled from the specification; each
such definition carries a doc comment saying so.
-/

/-! ## Characters and strings -/

/-- The set of characters stripped by Python's `str.strip()`: every
character for which `str.isspace` holds. -/
def pyIsSpace (c : Char) : Bool :=
  decide (c ∈ ([' ', '\t', '\n', '\r', '\x0b', '\x0c',
    '\x1c', '\x1d', '\x1e', '\x1f', '\x85', '\xa0',
    ' ', ' ', ' ', ' ', ' ', ' ', ' ',
    ' ', ' ', ' ', ' ', ' ',
    ' ', ' ', ' ', ' ', '　'] : List Char))

/-- Is `pre` a prefix of `s` (character lists)? -/
def chPrefix : List Char → List Char → Bool
  | [], _ => true
  | _ :: _, [] => false
  | a :: as, b :: bs => a = b && chPrefix as bs

/-- Python `s.startswith(pre)`. -/
def pyStartsWith (pre s : String) : Bool :=
  chPrefix pre.data s.data

/-- Python `s.endswith(suf)`. -/
def pyEndsWith (suf s : String) : Bool :=
  chPrefix suf.data.reverse s.data.reverse

/-- Drop the first `n` characters of a string. -/
def pyDrop (s : String) (n : Nat) : String :=
  String.mk (s.data.drop n)

/-- Python `sep.join(parts)`. -/
def pyJoin (sep : String) : List String → String
  | [] => ""
  | [a] => a
  | a :: b :: rest => a ++ sep ++ pyJoin sep (b :: rest)

/-- Concatenation of a list of strings. -/
def strConcat : List String → String
  | [] => ""
  | a :: rest => a ++ strConcat rest

/-- Split a character list on a separator character.  Mirrors Python
`str.split(sep)` for a one-character separator: splitting the empty string
yields `[[]]`, and a trailing separator yields a trailing empty piece. -/
def splitOnCharCh (sep : Char) (l : List Char) : List (List Char) :=
  l.foldr
    (fun c acc =>
      match acc with
      | [] => if c = sep then [[], []] else [[c]]
      | cur :: rest => if c = sep then [] :: cur :: rest else (c :: cur) :: rest)
    [[]]

/-- Python `s.split(sep)` for a one-character separator. -/
def pySplitOnChar (sep : Char) (s : String) : List String :=
  (splitOnCharCh sep s.data).map String.mk

/-- Python `s.split(chr(10))`, used to read a manifest line by line. -/
def pySplitLines (s : String) : List String :=
  pySplitOnChar '\n' s

/-- Remove leading Python whitespace from a character list. -/
def lstripCh (l : List Char) : List Char :=
  l.dropWhile (fun c => pyIsSpace c)

/-- Remove trailing Python whitespace from a character list. -/
def rstripCh (l : List Char) : List Char :=
  (l.reverse.dropWhile (fun c => pyIsSpace c)).reverse

/-- Python `s.strip()` on a character list. -/
def pyStripCh (l : List Char) : List Char :=
  rstripCh (lstripCh l)

/-- Python `s.strip()`. -/
def pyStrip (s : String) : String :=
  String.mk (pyStripCh s.data)

/-! ## Paths

POSIX path behaviour of `pathlib.PurePosixPath`, for the normal-form paths
the module manipulates (no trailing slashes, no `..` segments). -/

/-- `pathlib` path join `a / b`: an absolute right operand replaces the
left operand. -/
def pyPathJoin (a b : String) : String :=
  if pyStartsWith "/" b then b
  else if pyEndsWith "/" a then a ++ b
  else if a = "" then b
  else a ++ "/" ++ b

/-- `pathlib` `Path(p).parent`. -/
def pyParent (p : String) : String :=
  match pySplitOnChar '/' p with
  | [] => "."
  | [_] => "."
  | parts =>
    let d := pyJoin "/" parts.dropLast
    if d = "" then "/" else d

/-! ## Errors -/

/-- Errors raised by the engine.  `indexUrlMismatch` models
`reqwire.errors.IndexUrlMismatchError`; `valueError` models the
`ValueError` raised by `pathlib.PurePath.relative_to` when the argument is
not a subpath. -/
inductive RwErr : Type where
  | indexUrlMismatch (msg : String)
  | valueError (msg : String)
deriving DecidableEq

/-- `OSError`-class failures of directory or file creation.  The concrete
cause is abstract: the embedding only tracks which kind occurred, so that
claims can quantify over every possible `OSError`. -/
inductive OSErr : Type where
  | fileExists
  | permissionDenied
  | other (code : Nat)
deriving DecidableEq

/-- `pathlib` `Path(p).relative_to(base)`: the path relative to `base`,
or a `ValueError` when `p` is not below `base`. -/
def pyRelativeTo (p base : String) : Except RwErr String :=
  if p = base then .ok "."
  else if pyStartsWith (base ++ "/") p then .ok (pyDrop p (base.data.length + 1))
  else .error (.valueError (p ++ " does not start with " ++ base))

/-! ## scaffold.build_filename -/

/-- `scaffold.build_filename`: constructs the path to a tagged requirement
source file.  A pure function of its arguments; the source performs no
filesystem access here.  The source's defaults are `extension=".in"`,
`prefix="src"`; the last parameter is the source's `prefix` (renamed, as
`prefix` is a Lean keyword). -/
def build_filename (working_directory tag_name extension pre : String) : String :=
  pyPathJoin (pyPathJoin working_directory pre) (tag_name ++ extension)

/-! ## scaffold.build_source_header -/

/-- `scaffold.MODELINES_HEADER`. -/
def MODELINES_HEADER : String :=
  "# -*- mode: requirementstxt -*-\n# vim: set ft=requirements\n"

/-- `scaffold.DEFAULT_HEADER`.  The braces delimit the four `str.format`
placeholders, exactly as in the source (where the component lines are
joined by line continuations, so no newline separates the placeholders). -/
def DEFAULT_HEADER : String :=
  MODELINES_HEADER ++
    "# Generated by reqwire on %c\n\x7bnested_cfiles\x7d\x7bnested_rfiles\x7d\x7bindex_url\x7d\x7bextra_index_urls\x7d\n"

/-- `datetime.strftime` restricted to the only directive appearing in
`DEFAULT_HEADER`: every occurrence of `%c` in the template is replaced by
the locale-rendered timestamp `ts`, which is not rescanned. -/
def pyStrftimeCh (ts : List Char) : List Char → List Char
  | [] => []
  | [c] => [c]
  | c :: d :: rest =>
    if c = '%' ∧ d = 'c' then ts ++ pyStrftimeCh ts rest
    else c :: pyStrftimeCh ts (d :: rest)

/-- `str.format` with named fields, restricted to simple templates such as
`DEFAULT_HEADER` (no escaped braces, no format specs).  Substituted values
are not rescanned, as in Python.  The fuel argument is initialised with
the length of the template, which always suffices, and keeps the
definition structurally recursive so the kernel can evaluate it. -/
def pyFormatFuel (comps : String → String) : Nat → List Char → List Char
  | _, [] => []
  | 0, l => l
  | fuel + 1, c :: rest =>
    if c = '\x7b' then
      (comps (String.mk (rest.takeWhile (fun d => d ≠ '\x7d')))).data ++
        pyFormatFuel comps fuel ((rest.dropWhile (fun d => d ≠ '\x7d')).drop 1)
    else c :: pyFormatFuel comps fuel rest

/-- `str.format` over a whole string. -/
def pyFormat (comps : String → String) (s : String) : String :=
  String.mk (pyFormatFuel comps s.data.length s.data)

/-- The `for key in components: if components[key]: components[key] += chr(10)`
step of `build_source_header`: each non-empty component is terminated with
exactly one line break. -/
def compTerm (s : String) : String :=
  if s = "" then s else s ++ "\n"

/-- The `nested_cfiles` component: one `-c` directive line per element,
in iteration order (`chr(10).join`), empty when the set is absent. -/
def cfComponent (nested_cfiles : Option (List String)) : String :=
  match nested_cfiles with
  | none => ""
  | some l => pyJoin "\n" (l.map (fun f => "-c " ++ f))

/-- The `nested_rfiles` component: one `-r` directive line per element. -/
def rfComponent (nested_rfiles : Option (List String)) : String :=
  match nested_rfiles with
  | none => ""
  | some l => pyJoin "\n" (l.map (fun f => "-r " ++ f))

/-- The `index_url` component: a single `--index-url` directive with the
URL stripped of surrounding whitespace, as in the source. -/
def iuComponent (index_url : Option String) : String :=
  match index_url with
  | none => ""
  | some u => "--index-url " ++ pyStrip u

/-- The `extra_index_urls` component: one `--extra-index-url` directive
line per element. -/
def eiComponent (extra_index_urls : Option (List String)) : String :=
  match extra_index_urls with
  | none => ""
  | some l => pyJoin "\n" (l.map (fun u => "--extra-index-url " ++ u))

/-- The `components` dictionary of `build_source_header`, after the step
that terminates each non-empty component with one line break, as a lookup
by placeholder name. -/
def headerComps (index_url : Option String)
    (extra_index_urls nested_cfiles nested_rfiles : Option (List String)) :
    String → String :=
  fun k =>
    if k = "nested_cfiles" then compTerm (cfComponent nested_cfiles)
    else if k = "nested_rfiles" then compTerm (rfComponent nested_rfiles)
    else if k = "index_url" then compTerm (iuComponent index_url)
    else if k = "extra_index_urls" then compTerm (eiComponent extra_index_urls)
    else ""

/-- `scaffold.build_source_header`.  `ts` is the locale rendering of the
timestamp (`%c`); the source defaults `timestamp` to `datetime.now()`,
which the embedding makes an explicit argument.  Source defaults: all
`None`. -/
def build_source_header (format_string index_url : Option String)
    (extra_index_urls nested_cfiles nested_rfiles : Option (List String))
    (ts : String) : String :=
  let fmt := match format_string with
    | some f => f
    | none => DEFAULT_HEADER
  pyStrip
    (pyFormat (headerComps index_url extra_index_urls nested_cfiles nested_rfiles)
      (String.mk (pyStrftimeCh ts.data fmt.data))) ++ "\n"

/-! ## Filesystem model

An association list from absolute paths to file contents, threaded
explicitly through the operations that read or write files. -/

/-- The filesystem: a finite map from paths to file contents. -/
abbrev FS := List (String × String)

/-- Look up the contents of the file at `p`. -/
def fsLookup : FS → String → Option String
  | [], _ => none
  | (q, c) :: rest, p => if q = p then some c else fsLookup rest p

/-- Write contents `c` to the file at `p`, replacing any previous file. -/
def fsWrite : FS → String → String → FS
  | [], p, c => [(p, c)]
  | (q, d) :: rest, p, c =>
    if q = p then (p, c) :: rest else (q, d) :: fsWrite rest p c

/-! ## Ordered sets

`ordered_set.OrderedSet` semantics: insertion-order-preserving,
duplicate-free lists.  Plain Python `set`s are determinized the same way;
no claim proven below depends on the iteration order of a plain set. -/

/-- Insert an element at the end unless already present. -/
def oInsert {α : Type} [DecidableEq α] (l : List α) (x : α) : List α :=
  if x ∈ l then l else l ++ [x]

/-- Ordered union: add the new elements of `b` to `a` in order. -/
def oUnion {α : Type} [DecidableEq α] (a b : List α) : List α :=
  b.foldl oInsert a

/-- Deduplicate preserving first occurrences. -/
def oDedup {α : Type} [DecidableEq α] (l : List α) : List α :=
  oUnion [] l

/-! ## Requirements and the manifest model -/

/-- A resolved requirement: a package name together with the list of its
version specifier clauses (e.g. `[">=2", "<3"]` for `pkg>=2,<3`). -/
structure Req : Type where
  name : String
  specs : List String
deriving DecidableEq

/-- Modelled from the spec: the PEP 503 canonical-name normalizer used by
the external Specifier Resolver: lower-case the name and collapse every
run of `-`, `_`, `.` into a single `-`. -/
def canonChar (c : Char) : Char :=
  if c = '-' ∨ c = '_' ∨ c = '.' then '-' else c.toLower

/-- Collapse consecutive dashes. -/
def squashDashes : List Char → List Char
  | [] => []
  | c :: rest =>
    let r := squashDashes rest
    if c = '-' ∧ r.head? = some '-' then r else c :: r

/-- Canonical package name. -/
def canonName (s : String) : String :=
  String.mk (squashDashes (s.data.map canonChar))

/-- Modelled from the spec: parse one requirement line `name` +
comma-separated specifier clauses back into a `Req`. -/
def parseReqLine (s : String) : Req :=
  let name := s.data.takeWhile (fun c => ¬ (c = '<' ∨ c = '>' ∨ c = '=' ∨ c = '!' ∨ c = '~'))
  let spec := s.data.drop name.length
  { name := String.mk name
    specs := if spec = [] then [] else pySplitOnChar ',' (String.mk spec) }

/-- Modelled from the spec: the Manifest Model collaborator
(`reqwire.helpers.requirements.RequirementFile`), which is not part of
`scaffold.py`.  It exposes, for a manifest path: the optional recorded
`index_url`, the ordered set of `extra_index_urls`, the resolved filenames
of the directly included `-c` and `-r` files, the manifest's own
requirement set, and `index_urls`, the set of index URLs declared by the
manifest including those inherited transitively from nested files. -/
structure ManifestModel : Type where
  index_url : Option String
  extra_index_urls : List String
  nested_cfiles : List String
  nested_rfiles : List String
  requirements : List Req
  index_urls : List String
deriving DecidableEq

/-- The model of a manifest that does not exist yet. -/
def emptyManifest : ManifestModel :=
  ⟨none, [], [], [], [], []⟩

/-- Accumulator for a single manifest file's lines. -/
structure ParseAcc : Type where
  iu : Option String
  eiu : List String
  cf : List String
  rf : List String
  reqs : List Req
deriving DecidableEq

/-- Modelled from the spec: parse one line of the manifest file format
(leading comments, `-c`/`-r` includes resolved against the manifest's own
directory, `--index-url`, `--extra-index-url`, else a requirement line). -/
def parseLine (dir : String) (acc : ParseAcc) (line : String) : ParseAcc :=
  if line = "" ∨ pyStartsWith "#" line then acc
  else if pyStartsWith "-c " line then
    { acc with cf := oInsert acc.cf (pyPathJoin dir (pyDrop line 3)) }
  else if pyStartsWith "-r " line then
    { acc with rf := oInsert acc.rf (pyPathJoin dir (pyDrop line 3)) }
  else if pyStartsWith "--index-url " line then
    { acc with iu := some (pyStrip (pyDrop line 12)) }
  else if pyStartsWith "--extra-index-url " line then
    { acc with eiu := oInsert acc.eiu (pyStrip (pyDrop line 18)) }
  else
    { acc with reqs := oInsert acc.reqs (parseReqLine line) }

/-- Modelled from the spec: load the Manifest Model for a path, with fuel
bounding the recursion through nested includes (initialised with more fuel
than there are files, which suffices for every acyclic include graph). -/
def manifestAux : Nat → FS → String → ManifestModel
  | 0, _, _ => emptyManifest
  | fuel + 1, fs, path =>
    match fsLookup fs path with
    | none => emptyManifest
    | some content =>
      let dir := pyParent path
      let acc := (pySplitLines content).foldl (parseLine dir) ⟨none, [], [], [], []⟩
      let own := oUnion (match acc.iu with | some u => [u] | none => []) acc.eiu
      let nested := (acc.cf ++ acc.rf).foldl
        (fun us p => oUnion us (manifestAux fuel fs p).index_urls) []
      ⟨acc.iu, acc.eiu, acc.cf, acc.rf, acc.reqs, oUnion own nested⟩

/-- Modelled from the spec: `RequirementFile(str(filename))`. -/
def parseManifest (fs : FS) (path : String) : ManifestModel :=
  manifestAux (fs.length + 1) fs path

/-! ## The external Specifier Resolver and Version Intersector -/

/-- The Specifier Resolver collaborator
(`reqwire.helpers.requirements.build_ireq_set`).  Its behaviour depends on
network package indexes, so the embedding takes it as an oracle: any
function with the contract's signature.  `extend_source_file` is verified
for every such oracle. -/
structure Resolver : Type where
  build_ireq_set : (specifiers : List String) → (index_urls : List String) →
    (prereleases : Bool) → (resolve_canonical_names : Bool) →
    (resolve_source_dir : String) → (resolve_versions : Bool) → List Req

/-- Modelled from the spec: the Version Intersector
(`reqwire.helpers.requirements.resolve_ireqs`) with `intersect=true`
merges the requirement set by canonical package name, replacing the
constraints of colliding entries by the conjunction (intersection) of
their version-range clauses.  Whether the intersected range is satisfiable
is a semantic question about PEP 440 versions that no claim under
verification depends on, so it is not modelled; `prereleases` only filters
candidate versions during network resolution and is likewise irrelevant
here. -/
def insertIntersect (acc : List Req) (r : Req) : List Req :=
  if acc.any (fun a => canonName a.name == canonName r.name) then
    acc.map (fun a =>
      if canonName a.name = canonName r.name then
        { a with specs := oUnion a.specs r.specs }
      else a)
  else acc ++ [r]

/-- Modelled from the spec: `resolve_ireqs`. -/
def resolve_ireqs (requirements : List Req) (prereleases intersect : Bool) : List Req :=
  if intersect then requirements.foldl insertIntersect [] else oDedup requirements

/-- Modelled from the spec: one formatted line per resolved requirement. -/
def formatReq (r : Req) : String :=
  r.name ++ pyJoin "," r.specs

/-- Modelled from the spec: `write_requirements(filename, requirements,
header)` writes the header followed by one formatted line per requirement,
replacing the file's entire prior contents.  This gives the contents
written. -/
def writeRequirements (header : String) (reqs : List Req) : String :=
  header ++ strConcat (reqs.map (fun r => formatReq r ++ "\n"))

/-! ## scaffold.extend_source_file -/

/-- Python `repr`-free formatting of an optional string inside
`"{}".format(...)`: `None` prints as `None`. -/
def optRepr : Option String → String
  | none => "None"
  | some s => s

/-- Lines 195–201 of `scaffold.py`: the index-consistency check and
adoption step.  When the manifest exists and the caller supplied an
`index_url` different from the recorded one (a recorded `None` included,
since in Python `str != None` is true), raise `IndexUrlMismatchError`;
when the caller supplied none, adopt the manifest's recorded `index_url`
and union its extra index URLs into the working set. -/
def adopt_index_urls (existsFile : Bool) (index_url : Option String)
    (extra : List String) (m : ManifestModel) :
    Except RwErr (Option String × List String) :=
  if existsFile then
    match index_url with
    | some u =>
      if some u ≠ m.index_url then
        .error (.indexUrlMismatch
          ("\x22" ++ u ++ "\x22 != \x22" ++ optRepr m.index_url ++ "\x22"))
      else .ok (some u, extra)
    | none => .ok (m.index_url, oUnion extra m.extra_index_urls)
  else .ok (index_url, extra)

/-- Lines 203–209 of `scaffold.py`: when the caller passed no
`lookup_index_urls`, derive them from the effective `index_url` and extra
index URLs, falling back to the manifest's transitive `index_urls` when
that union is empty. -/
def derive_lookup_index_urls (index_url : Option String) (extra : List String)
    (m : ManifestModel) : List String :=
  let base := oUnion (match index_url with | some u => [u] | none => []) extra
  if base = [] ∧ m.index_urls ≠ [] then oUnion base m.index_urls else base

/-- `scaffold.extend_source_file`.  State-passing embedding: the result is
the raised error or `()`, paired with the filesystem after the call.  The
fasteners cross-process lock decorating the source function serialises
whole calls and is invisible to this single-call model.  Source defaults:
`extension=".in"`, `index_url=None`, `extra_index_urls=None`,
`lookup_index_urls=None`, `prereleases=False`,
`resolve_canonical_names=True`, `resolve_versions=True`.  `ts` is the
locale rendering of the generation timestamp. -/
def extend_source_file (R : Resolver) (working_directory tag_name : String)
    (specifiers : List String) (extension : String) (index_url : Option String)
    (extra_index_urls lookup_index_urls : Option (List String))
    (prereleases resolve_canonical_names resolve_versions : Bool)
    (ts : String) (fs : FS) : Except RwErr Unit × FS :=
  let extra0 := oDedup (extra_index_urls.getD [])
  let filename := build_filename working_directory tag_name extension "src"
  let req_file := parseManifest fs filename
  match adopt_index_urls (fsLookup fs filename).isSome index_url extra0 req_file with
  | .error e => (.error e, fs)
  | .ok (index_url', extra') =>
    let lookup := match lookup_index_urls with
      | some l => l
      | none => derive_lookup_index_urls index_url' extra' req_file
    let newReqs := R.build_ireq_set specifiers lookup prereleases
      resolve_canonical_names (pyParent working_directory) resolve_versions
    let resolved := resolve_ireqs (oUnion req_file.requirements newReqs) prereleases true
    match req_file.nested_cfiles.mapM (fun cf => pyRelativeTo cf (pyParent filename)) with
    | .error e => (.error e, fs)
    | .ok cls =>
      match req_file.nested_rfiles.mapM (fun rf => pyRelativeTo rf (pyParent filename)) with
      | .error e => (.error e, fs)
      | .ok rls =>
        let header := build_source_header none index_url' (some extra')
          (some (oDedup cls)) (some (oDedup rls)) ts
        (.ok (), fsWrite fs filename (writeRequirements header resolved))

/-! ## scaffold.init_source_dir and scaffold.init_source_file -/

/-- `scaffold.init_source_dir`.  The outcome of `src.mkdir(...)` is an OS
call, so the embedding abstracts it as a parameter: `none` when creation
succeeds, `some e` when it raises the `OSError` `e`.  The `mode` and
`create_parents` arguments only influence that outcome and are otherwise
unused, exactly as in the source.  Source defaults: `mode=0o777`,
`create_parents=True`, `exist_ok=False`, `name="src"`. -/
def init_source_dir (mkdirOutcome : Option OSErr) (working_directory : String)
    (mode : Nat) (create_parents exist_ok : Bool) (name : String) :
    Except OSErr String :=
  let src := pyPathJoin working_directory name
  match mkdirOutcome with
  | none => .ok src
  | some e => if exist_ok then .ok src else .error e

/-- `pathlib.Path.touch` at the call site in `init_source_file`: the source
passes only `mode`, so `exist_ok` keeps its default `True`, and touching a
path whose file already exists succeeds without error (it only updates the
mtime).  On a writable filesystem with the parent directory present — the
situation every claim below quantifies over — `touch` therefore never
raises, which the `Except` result records. -/
def pyTouch (fs : FS) (p : String) : Except OSErr FS :=
  .ok (if (fsLookup fs p).isSome then fs else fsWrite fs p "")

/-- `scaffold.init_source_file`.  Mirrors the source control flow: attempt
`touch`; on an `OSError` re-raise unless `overwrite` is set; then — in
every non-raising path — open the file for writing (truncating it) and
write a freshly rendered default header as its entire contents.  The
`index_url` and `extra_index_urls` parameters are accepted but never used
by the source body; `mode`, `encoding` and `errors` only parameterise the
OS calls.  Source defaults: `extension=".in"`, `index_url=None`,
`extra_index_urls=None`, `encoding=None`, `errors=None`, `mode=0o666`,
`overwrite=False`. -/
def init_source_file (working_directory tag_name extension : String)
    (index_url : Option String) (extra_index_urls : Option (List String))
    (encoding errors : Option String) (mode : Nat) (overwrite : Bool)
    (ts : String) (fs : FS) : Except OSErr String × FS :=
  let filename := build_filename working_directory tag_name extension "src"
  let write := fun (fs2 : FS) =>
    (Except.ok filename,
      fsWrite fs2 filename (build_source_header none none none none none ts))
  match pyTouch fs filename with
  | .ok fs2 => write fs2
  | .error e => if overwrite then write fs else (.error e, fs)

/-! ## Basic lemmas -/

/-- Writing a file and reading it back yields the written contents. -/
theorem fsLookup_fsWrite (fs : FS) (p c : String) :
    fsLookup (fsWrite fs p c) p = some c := by
  induction fs with
  | nil => simp [fsWrite, fsLookup]
  | cons hd tl ih =>
    obtain ⟨q, d⟩ := hd
    by_cases h : q = p
    · simp [fsWrite, h, fsLookup]
    · simp [fsWrite, h, fsLookup, ih]

/-! ## Claim C8 -/

/-- Claim C8: `build_filename` is a pure function of its arguments — for
all inputs it returns `working_directory / prefix / (tag_name +
extension)` (the `pathlib` joins), and in particular
`build_filename("/work", "base", ".in", "src")` is exactly
`/work/src/base.in`.  The embedding takes no filesystem argument, which is
the formal counterpart of "no filesystem access and no existence
requirement". -/
theorem claim_C8_build_filename_pure :
    build_filename "/work" "base" ".in" "src" = "/work/src/base.in" ∧
    ∀ working_directory tag_name extension pre : String,
      build_filename working_directory tag_name extension pre =
        pyPathJoin (pyPathJoin working_directory pre) (tag_name ++ extension) :=
  ⟨by decide, fun _ _ _ _ => rfl⟩

/-! ## Claim C10 -/

/-- Claim C10: with `exist_ok=true`, `init_source_dir` swallows every
`OSError` raised by directory creation — not only the
target-already-exists case — and still returns
`working_directory/name`; with `exist_ok=false` every such `OSError`
propagates unchanged. -/
theorem claim_C10_init_source_dir_oserror :
    ∀ (e : OSErr) (working_directory : String) (mode : Nat)
      (create_parents : Bool) (name : String),
      init_source_dir (some e) working_directory mode create_parents true name
          = .ok (pyPathJoin working_directory name) ∧
      init_source_dir (some e) working_directory mode create_parents false name
          = .error e :=
  fun _ _ _ _ _ => ⟨rfl, rfl⟩

/-! ## Claim C5 -/

/-- The lookup-index set exactly as the claim words it: the union of the
effective `index_url` (when non-null) and the effective extra index URLs;
when that union is empty, the manifest's full transitive set of declared
index URLs instead. -/
def lookup_urls_per_claim (index_url : Option String) (extra : List String)
    (m : ManifestModel) : List String :=
  let u := oUnion (match index_url with | some a => [a] | none => []) extra
  if u = [] then oDedup m.index_urls else u

/-- Claim C5: in `extend_source_file`, when the caller passes no
`lookup_index_urls`, the lookup set used for specifier resolution — which
the embedding's `extend_source_file` computes with
`derive_lookup_index_urls` on exactly that branch — equals the set the
claim describes.  (The only textual difference in the source is that the
fallback is guarded by `req_file.index_urls` being non-empty, which
coincides with the claim's unconditional description because when both
sides are empty the fallback is also empty.) -/
theorem claim_C5_lookup_index_derivation :
    ∀ (index_url : Option String) (extra : List String) (m : ManifestModel),
      derive_lookup_index_urls index_url extra m
        = lookup_urls_per_claim index_url extra m := by
  intro iu extra m
  simp only [derive_lookup_index_urls, lookup_urls_per_claim]
  by_cases hb : oUnion (match iu with | some u => [u] | none => []) extra = []
  · rw [hb]
    by_cases hm : m.index_urls = []
    · rw [hm]; simp [oDedup, oUnion]
    · simp [hm, oDedup]
  · simp [hb]

/-! ## Claim C2 -/

set_option maxRecDepth 10000 in
/-- Claim C2 (code bug): on a pre-existing manifest path,
`init_source_file` with `overwrite=false` does **not** raise a filesystem
error, contrary to the claim and to the spec's stated overwrite semantics:
`Path.touch` is called without `exist_ok`, whose default `True` makes the
touch succeed on an existing file, and the header write that follows is
unconditional.  Evaluating the embedding at the failing input: a file
exists at `/w/src/base.in` with content `"OLD CONTENT"`, yet the call
returns successfully and truncates the file to a freshly rendered header
(which differs from the prior content). -/
theorem claim_C2_init_overwrite_code_bug :
    init_source_file "/w" "base" ".in" none none none none 438 false
        "Sun Oct 12 00:00:00 2026" [("/w/src/base.in", "OLD CONTENT")]
      = (.ok "/w/src/base.in",
         [("/w/src/base.in",
           "# -*- mode: requirementstxt -*-\n# vim: set ft=requirements\n# Generated by reqwire on Sun Oct 12 00:00:00 2026\n")]) ∧
    "# -*- mode: requirementstxt -*-\n# vim: set ft=requirements\n# Generated by reqwire on Sun Oct 12 00:00:00 2026\n"
      ≠ "OLD CONTENT" := by
  exact ⟨by rfl, by decide⟩

/-! ## Claim C9 -/

/-- Claim C9: the file contents written by `init_source_file` are
independent of its `index_url` and `extra_index_urls` arguments: two calls
differing only in those arguments (same timestamp) return the same result
and the same filesystem, byte for byte; and the written file's contents
are the header rendered with no index arguments at all. -/
theorem claim_C9_init_independent_of_index_args :
    ∀ (fs : FS) (wd tag ext : String) (iu1 iu2 : Option String)
      (eiu1 eiu2 : Option (List String)) (enc errs : Option String)
      (mode : Nat) (overwrite : Bool) (ts : String),
      init_source_file wd tag ext iu1 eiu1 enc errs mode overwrite ts fs
        = init_source_file wd tag ext iu2 eiu2 enc errs mode overwrite ts fs ∧
      fsLookup (init_source_file wd tag ext iu1 eiu1 enc errs mode overwrite ts fs).2
          (build_filename wd tag ext "src")
        = some (build_source_header none none none none none ts) := by
  intro fs wd tag ext iu1 iu2 eiu1 eiu2 enc errs mode overwrite ts
  refine ⟨rfl, ?_⟩
  simp only [init_source_file, pyTouch]
  exact fsLookup_fsWrite _ _ _

/-! ## Claim C1 -/

/-- Claim C1: extending an existing manifest whose recorded `index_url` is
`A` with an explicit `index_url = B ≠ A` raises
`IndexUrlMismatchError` (with Python's `'"{}" != "{}"'` message), and the
filesystem — in particular the manifest's bytes — is returned unchanged:
the error is raised before the rewrite step. -/
theorem claim_C1_extend_mismatch (R : Resolver) (fs : FS)
    (working_directory tag_name : String) (specifiers : List String)
    (extension A B : String) (eiu liu : Option (List String))
    (prereleases rcn rv : Bool) (ts : String)
    (hex : (fsLookup fs (build_filename working_directory tag_name extension "src")).isSome = true)
    (hrec : (parseManifest fs (build_filename working_directory tag_name extension "src")).index_url = some A)
    (hne : B ≠ A) :
    extend_source_file R working_directory tag_name specifiers extension
        (some B) eiu liu prereleases rcn rv ts fs
      = (.error (.indexUrlMismatch ("\x22" ++ B ++ "\x22 != \x22" ++ A ++ "\x22")), fs) := by
  simp [extend_source_file, adopt_index_urls, hex, hrec, optRepr, hne]

/-- A trivial Specifier Resolver oracle, used to instantiate concrete
witnesses. -/
def trivialResolver : Resolver :=
  ⟨fun _ _ _ _ _ _ => []⟩

set_option maxRecDepth 10000 in
/-- Witness for claim C1 at a concrete input. -/
theorem claim_C1_extend_mismatch_witness :
    extend_source_file trivialResolver "/w" "base" [] ".in"
        (some "https://b") none none false true true "TS"
        [("/w/src/base.in", "--index-url https://a\n")]
      = (.error (.indexUrlMismatch "\x22https://b\x22 != \x22https://a\x22"),
         [("/w/src/base.in", "--index-url https://a\n")]) :=
  claim_C1_extend_mismatch trivialResolver
    [("/w/src/base.in", "--index-url https://a\n")]
    "/w" "base" [] ".in" "https://a" "https://b" none none false true true "TS"
    (by rfl) (by rfl) (by decide)

/-! ## Claim C3 -/

set_option maxRecDepth 10000 in
/-- Claim C3 is false on the code: for a manifest that records **no**
`index_url`, extending with an explicit `index_url` **does** raise the
mismatch error, because the source's guard `index_url is not None and
index_url != req_file.index_url` compares the string against `None` and
`"https://b" != None` is true in Python.  Concrete counterexample: the
manifest contains only the requirement line `flask`, yet the call fails
with `IndexUrlMismatchError` and nothing is written. -/
theorem claim_C3_counterexample :
    extend_source_file trivialResolver "/w" "base" [] ".in"
        (some "https://b") none none false true true "TS"
        [("/w/src/base.in", "flask\n")]
      = (.error (.indexUrlMismatch "\x22https://b\x22 != \x22None\x22"),
         [("/w/src/base.in", "flask\n")]) := by
  rfl

/-- `pyRelativeTo` only ever fails with a `valueError`. -/
theorem pyRelativeTo_error_shape (p base : String) (e : RwErr)
    (h : pyRelativeTo p base = .error e) : ∃ m, e = .valueError m := by
  unfold pyRelativeTo at h
  by_cases h1 : p = base
  · simp [h1] at h
  · by_cases h2 : pyStartsWith (base ++ "/") p = true
    · simp [h1, h2] at h
    · simp [h1, h2] at h
      exact ⟨_, h.symm⟩

/-- Mapping `pyRelativeTo` over a list of paths only ever fails with a
`valueError`. -/
theorem mapM_relativeTo_error_shape (base : String) :
    ∀ (l acc : List String) (e : RwErr),
      List.mapM.loop (fun p => pyRelativeTo p base) l acc = .error e →
      ∃ m, e = .valueError m := by
  intro l
  induction l with
  | nil =>
    intro acc e h
    exact Except.noConfusion h
  | cons x xs ih =>
    intro acc e h
    rcases hx : pyRelativeTo x base with e2 | b
    · rw [List.mapM.loop, hx] at h
      have h2 : (Except.error e2 : Except RwErr (List String)) = Except.error e := h
      cases h2
      exact pyRelativeTo_error_shape x base _ hx
    · rw [List.mapM.loop, hx] at h
      have h2 : List.mapM.loop (fun p => pyRelativeTo p base) xs (b :: acc) = .error e := h
      exact ih _ _ h2

/-- Claim C3 as amended: `extend_source_file` raises the index-URL
mismatch error exactly when the manifest exists and the caller's explicit
`index_url` differs from the manifest's recorded value, where "records
none" also counts as differing; only a supplied URL equal to the recorded
one avoids the mismatch error. -/
theorem claim_C3_amended_mismatch_strict (R : Resolver) (fs : FS)
    (working_directory tag_name : String) (specifiers : List String)
    (extension u : String) (eiu liu : Option (List String))
    (prereleases rcn rv : Bool) (ts : String)
    (hex : (fsLookup fs (build_filename working_directory tag_name extension "src")).isSome = true) :
    ((parseManifest fs (build_filename working_directory tag_name extension "src")).index_url ≠ some u →
      extend_source_file R working_directory tag_name specifiers extension
          (some u) eiu liu prereleases rcn rv ts fs
        = (.error (.indexUrlMismatch ("\x22" ++ u ++ "\x22 != \x22" ++
            optRepr (parseManifest fs (build_filename working_directory tag_name extension "src")).index_url
            ++ "\x22")), fs)) ∧
    ((parseManifest fs (build_filename working_directory tag_name extension "src")).index_url = some u →
      ∀ msg : String,
        (extend_source_file R working_directory tag_name specifiers extension
            (some u) eiu liu prereleases rcn rv ts fs).1
          ≠ .error (.indexUrlMismatch msg)) := by
  constructor
  · intro hne
    have hne' : some u ≠ (parseManifest fs (build_filename working_directory tag_name extension "src")).index_url :=
      fun h => hne h.symm
    simp [extend_source_file, adopt_index_urls, hex, hne']
  · intro heq msg
    cases hc : (parseManifest fs (build_filename working_directory tag_name extension "src")).nested_cfiles.mapM
        (fun cf => pyRelativeTo cf (pyParent (build_filename working_directory tag_name extension "src"))) with
    | error e =>
      simp only [List.mapM] at hc
      simp [extend_source_file, adopt_index_urls, hex, heq, hc]
      obtain ⟨m, rfl⟩ := mapM_relativeTo_error_shape _ _ _ _ hc
      simp
    | ok cls =>
      simp only [List.mapM] at hc
      cases hr : (parseManifest fs (build_filename working_directory tag_name extension "src")).nested_rfiles.mapM
          (fun rf => pyRelativeTo rf (pyParent (build_filename working_directory tag_name extension "src"))) with
      | error e =>
        simp only [List.mapM] at hr
        simp [extend_source_file, adopt_index_urls, hex, heq, hc, hr]
        obtain ⟨m, rfl⟩ := mapM_relativeTo_error_shape _ _ _ _ hr
        simp
      | ok rls =>
        simp only [List.mapM] at hr
        simp [extend_source_file, adopt_index_urls, hex, heq, hc, hr]

set_option maxRecDepth 10000 in
/-- Witness for the amended claim C3 at a concrete input. -/
theorem claim_C3_amended_witness :
    extend_source_file trivialResolver "/p" "t" [] ".in"
        (some "https://two") none none false true true "TS"
        [("/p/src/t.in", "--index-url https://one\n")]
      = (.error (.indexUrlMismatch "\x22https://two\x22 != \x22https://one\x22"),
         [("/p/src/t.in", "--index-url https://one\n")]) :=
  (claim_C3_amended_mismatch_strict trivialResolver
    [("/p/src/t.in", "--index-url https://one\n")]
    "/p" "t" [] ".in" "https://two" none none false true true "TS"
    (by rfl)).1 (by decide)

/-! ## Requirement uniqueness (claims C4 and C7) -/

/-- At most one entry per canonical package name. -/
def KeyDistinct (l : List Req) : Prop :=
  l.Pairwise (fun a b => canonName a.name ≠ canonName b.name)

/-- `insertIntersect` preserves canonical-name distinctness: a colliding
name is merged into the existing entry (keeping its name), a fresh name is
appended. -/
theorem insertIntersect_keyDistinct (acc : List Req) (r : Req)
    (h : KeyDistinct acc) : KeyDistinct (insertIntersect acc r) := by
  unfold insertIntersect
  by_cases hm : acc.any (fun a => canonName a.name == canonName r.name) = true
  · rw [if_pos hm]
    unfold KeyDistinct at h ⊢
    refine List.Pairwise.map _ ?_ h
    intro a b hab
    have ha : (if canonName a.name = canonName r.name then
        { a with specs := oUnion a.specs r.specs } else a).name = a.name := by
      by_cases hc : canonName a.name = canonName r.name <;> simp [hc]
    have hb : (if canonName b.name = canonName r.name then
        { b with specs := oUnion b.specs r.specs } else b).name = b.name := by
      by_cases hc : canonName b.name = canonName r.name <;> simp [hc]
    rw [ha, hb]
    exact hab
  · rw [if_neg hm]
    unfold KeyDistinct at h ⊢
    rw [List.pairwise_append]
    refine ⟨h, by simp, ?_⟩
    intro a ha b hb
    simp only [List.mem_singleton] at hb
    subst hb
    intro hcontra
    apply hm
    simp only [List.any_eq_true]
    exact ⟨a, ha, by simp [hcontra]⟩

/-- Folding `insertIntersect` preserves canonical-name distinctness. -/
theorem foldl_insertIntersect_keyDistinct :
    ∀ (l acc : List Req), KeyDistinct acc →
      KeyDistinct (l.foldl insertIntersect acc) := by
  intro l
  induction l with
  | nil => intro acc h; simpa using h
  | cons r tl ih =>
    intro acc h
    simp only [List.foldl_cons]
    exact ih _ (insertIntersect_keyDistinct acc r h)

/-- The Version Intersector with `intersect=true` yields at most one
entry per canonical package name. -/
theorem resolve_ireqs_keyDistinct (l : List Req) (prereleases : Bool) :
    KeyDistinct (resolve_ireqs l prereleases true) := by
  unfold resolve_ireqs
  simp only [if_pos]
  exact foldl_insertIntersect_keyDistinct l [] List.Pairwise.nil

/-- Success shape of `extend_source_file`: when the index-consistency
check passes and both nested-label relativisations succeed, the call
writes — at the resolved manifest path — the header built from the final
index configuration and the deduplicated relative nested-file labels,
followed by the resolved requirement lines, and returns successfully. -/
theorem extend_success_eq (R : Resolver) (working_directory tag_name : String)
    (specifiers : List String) (extension : String) (index_url : Option String)
    (eiu liu : Option (List String)) (prereleases rcn rv : Bool) (ts : String)
    (fs : FS) (iu2 : Option String) (ex2 cls rls : List String)
    (hadopt : adopt_index_urls
        (fsLookup fs (build_filename working_directory tag_name extension "src")).isSome
        index_url (oDedup (eiu.getD []))
        (parseManifest fs (build_filename working_directory tag_name extension "src"))
      = .ok (iu2, ex2))
    (hcls : (parseManifest fs (build_filename working_directory tag_name extension "src")).nested_cfiles.mapM
        (fun cf => pyRelativeTo cf (pyParent (build_filename working_directory tag_name extension "src")))
      = .ok cls)
    (hrls : (parseManifest fs (build_filename working_directory tag_name extension "src")).nested_rfiles.mapM
        (fun rf => pyRelativeTo rf (pyParent (build_filename working_directory tag_name extension "src")))
      = .ok rls) :
    extend_source_file R working_directory tag_name specifiers extension
        index_url eiu liu prereleases rcn rv ts fs
      = (.ok (),
         fsWrite fs (build_filename working_directory tag_name extension "src")
           (writeRequirements
             (build_source_header none iu2 (some ex2)
               (some (oDedup cls)) (some (oDedup rls)) ts)
             (resolve_ireqs
               (oUnion
                 (parseManifest fs (build_filename working_directory tag_name extension "src")).requirements
                 (R.build_ireq_set specifiers
                   (match liu with
                    | some l => l
                    | none => derive_lookup_index_urls iu2 ex2
                        (parseManifest fs (build_filename working_directory tag_name extension "src")))
                   prereleases rcn (pyParent working_directory) rv))
               prereleases true))) := by
  simp only [List.mapM] at hcls hrls
  simp [extend_source_file, hadopt, hcls, hrls]

/-! ## Claim C4 -/

/-- Claim C4: for every successful `extend_source_file` call, the
requirement set written to the manifest equals the Version Intersector
(`resolve_ireqs` with `intersect=true`) applied to the union of the
manifest's prior requirement set and the set newly resolved from the
given specifiers; and that written set contains at most one entry per
canonical package name — colliding names are merged by constraint
intersection, never overwritten. -/
theorem claim_C4_union_then_intersect (R : Resolver)
    (working_directory tag_name : String) (specifiers : List String)
    (extension : String) (index_url : Option String)
    (eiu liu : Option (List String)) (prereleases rcn rv : Bool) (ts : String)
    (fs : FS) (iu2 : Option String) (ex2 cls rls : List String)
    (hadopt : adopt_index_urls
        (fsLookup fs (build_filename working_directory tag_name extension "src")).isSome
        index_url (oDedup (eiu.getD []))
        (parseManifest fs (build_filename working_directory tag_name extension "src"))
      = .ok (iu2, ex2))
    (hcls : (parseManifest fs (build_filename working_directory tag_name extension "src")).nested_cfiles.mapM
        (fun cf => pyRelativeTo cf (pyParent (build_filename working_directory tag_name extension "src")))
      = .ok cls)
    (hrls : (parseManifest fs (build_filename working_directory tag_name extension "src")).nested_rfiles.mapM
        (fun rf => pyRelativeTo rf (pyParent (build_filename working_directory tag_name extension "src")))
      = .ok rls) :
    extend_source_file R working_directory tag_name specifiers extension
        index_url eiu liu prereleases rcn rv ts fs
      = (.ok (),
         fsWrite fs (build_filename working_directory tag_name extension "src")
           (writeRequirements
             (build_source_header none iu2 (some ex2)
               (some (oDedup cls)) (some (oDedup rls)) ts)
             (resolve_ireqs
               (oUnion
                 (parseManifest fs (build_filename working_directory tag_name extension "src")).requirements
                 (R.build_ireq_set specifiers
                   (match liu with
                    | some l => l
                    | none => derive_lookup_index_urls iu2 ex2
                        (parseManifest fs (build_filename working_directory tag_name extension "src")))
                   prereleases rcn (pyParent working_directory) rv))
               prereleases true))) ∧
    KeyDistinct
      (resolve_ireqs
        (oUnion
          (parseManifest fs (build_filename working_directory tag_name extension "src")).requirements
          (R.build_ireq_set specifiers
            (match liu with
             | some l => l
             | none => derive_lookup_index_urls iu2 ex2
                 (parseManifest fs (build_filename working_directory tag_name extension "src")))
            prereleases rcn (pyParent working_directory) rv))
        prereleases true) :=
  ⟨extend_success_eq R working_directory tag_name specifiers extension index_url
      eiu liu prereleases rcn rv ts fs iu2 ex2 cls rls hadopt hcls hrls,
   resolve_ireqs_keyDistinct _ _⟩

/-- A resolver oracle returning a fixed requirement, used by the C4
witness: resolving `["foo>=2,<4"]` yields `foo` with clauses
`>=2`, `<4`. -/
def fooResolver : Resolver :=
  ⟨fun _ _ _ _ _ _ => [⟨"foo", [">=2", "<4"]⟩]⟩

set_option maxRecDepth 10000 in
/-- Witness for claim C4 at a concrete input: the manifest already pins
`foo>=1,<3` and the newly resolved requirement is `foo>=2,<4`. -/
theorem claim_C4_union_then_intersect_witness :
    extend_source_file fooResolver "/w" "base" ["foo>=2,<4"] ".in"
        none none none false true true "TS" [("/w/src/base.in", "foo>=1,<3\n")]
      = (.ok (),
         fsWrite [("/w/src/base.in", "foo>=1,<3\n")] (build_filename "/w" "base" ".in" "src")
           (writeRequirements
             (build_source_header none none (some []) (some (oDedup [])) (some (oDedup [])) "TS")
             (resolve_ireqs
               (oUnion
                 (parseManifest [("/w/src/base.in", "foo>=1,<3\n")] (build_filename "/w" "base" ".in" "src")).requirements
                 (fooResolver.build_ireq_set ["foo>=2,<4"]
                   (derive_lookup_index_urls none []
                     (parseManifest [("/w/src/base.in", "foo>=1,<3\n")] (build_filename "/w" "base" ".in" "src")))
                   false true (pyParent "/w") true))
               false true))) ∧
    KeyDistinct
      (resolve_ireqs
        (oUnion
          (parseManifest [("/w/src/base.in", "foo>=1,<3\n")] (build_filename "/w" "base" ".in" "src")).requirements
          (fooResolver.build_ireq_set ["foo>=2,<4"]
            (derive_lookup_index_urls none []
              (parseManifest [("/w/src/base.in", "foo>=1,<3\n")] (build_filename "/w" "base" ".in" "src")))
            false true (pyParent "/w") true))
        false true) :=
  claim_C4_union_then_intersect fooResolver "/w" "base" ["foo>=2,<4"] ".in"
    none none none false true true "TS" [("/w/src/base.in", "foo>=1,<3\n")]
    none [] [] [] (by rfl) (by rfl) (by rfl)

/-! ## Claim C7 -/

/-- Claim C7: in the header written by a successful `extend_source_file`,
every nested constraint or requirement file of the manifest is labelled by
its path relative to the directory containing the manifest itself
(`pyParent` of the resolved manifest path, not the working directory),
with insertion order preserved and duplicates removed (`oDedup`). -/
theorem claim_C7_nested_labels_relative (R : Resolver)
    (working_directory tag_name : String) (specifiers : List String)
    (extension : String) (index_url : Option String)
    (eiu liu : Option (List String)) (prereleases rcn rv : Bool) (ts : String)
    (fs : FS) (iu2 : Option String) (ex2 cls rls : List String)
    (hadopt : adopt_index_urls
        (fsLookup fs (build_filename working_directory tag_name extension "src")).isSome
        index_url (oDedup (eiu.getD []))
        (parseManifest fs (build_filename working_directory tag_name extension "src"))
      = .ok (iu2, ex2))
    (hcls : (parseManifest fs (build_filename working_directory tag_name extension "src")).nested_cfiles.mapM
        (fun cf => pyRelativeTo cf (pyParent (build_filename working_directory tag_name extension "src")))
      = .ok cls)
    (hrls : (parseManifest fs (build_filename working_directory tag_name extension "src")).nested_rfiles.mapM
        (fun rf => pyRelativeTo rf (pyParent (build_filename working_directory tag_name extension "src")))
      = .ok rls) :
    fsLookup
        (extend_source_file R working_directory tag_name specifiers extension
          index_url eiu liu prereleases rcn rv ts fs).2
        (build_filename working_directory tag_name extension "src")
      = some
          (writeRequirements
            (build_source_header none iu2 (some ex2)
              (some (oDedup cls)) (some (oDedup rls)) ts)
            (resolve_ireqs
              (oUnion
                (parseManifest fs (build_filename working_directory tag_name extension "src")).requirements
                (R.build_ireq_set specifiers
                  (match liu with
                   | some l => l
                   | none => derive_lookup_index_urls iu2 ex2
                       (parseManifest fs (build_filename working_directory tag_name extension "src")))
                  prereleases rcn (pyParent working_directory) rv))
              prereleases true)) := by
  rw [extend_success_eq R working_directory tag_name specifiers extension index_url
      eiu liu prereleases rcn rv ts fs iu2 ex2 cls rls hadopt hcls hrls]
  exact fsLookup_fsWrite _ _ _

set_option maxRecDepth 10000 in
/-- Witness for claim C7 at a concrete input where the manifest's own
directory `/w/src` differs from the working directory `/w`: the nested
file `/w/src/deps/common.in` is labelled `deps/common.in`, its path
relative to the manifest's directory. -/
theorem claim_C7_nested_labels_relative_witness :
    fsLookup
        (extend_source_file trivialResolver "/w" "base" [] ".in"
          none none none false true true "TS"
          [("/w/src/base.in", "-c deps/common.in\nfoo>=1\n")]).2
        (build_filename "/w" "base" ".in" "src")
      = some
          (writeRequirements
            (build_source_header none none (some [])
              (some (oDedup ["deps/common.in"])) (some (oDedup [])) "TS")
            (resolve_ireqs
              (oUnion
                (parseManifest [("/w/src/base.in", "-c deps/common.in\nfoo>=1\n")]
                  (build_filename "/w" "base" ".in" "src")).requirements
                (trivialResolver.build_ireq_set []
                  (derive_lookup_index_urls none []
                    (parseManifest [("/w/src/base.in", "-c deps/common.in\nfoo>=1\n")]
                      (build_filename "/w" "base" ".in" "src")))
                  false true (pyParent "/w") true))
              false true)) :=
  claim_C7_nested_labels_relative trivialResolver "/w" "base" [] ".in"
    none none none false true true "TS"
    [("/w/src/base.in", "-c deps/common.in\nfoo>=1\n")]
    none [] ["deps/common.in"] [] (by rfl) (by rfl) (by rfl)

/-! ## Claim C6: header layout

A text has two consecutive blank lines exactly when three newline
characters appear in a row somewhere, or it starts with two newlines (two
leading blank lines).  It ends with exactly one trailing newline when its
last character is a newline and it does not end with two. -/

/-- The formalisation of "contains no two consecutive blank lines". -/
def noTwoConsecutiveBlankLines (s : String) : Prop :=
  ¬ (['\n', '\n', '\n'] <:+: s.data) ∧ s.data.take 2 ≠ ['\n', '\n']

/-- The formalisation of "ends with exactly one trailing newline". -/
def endsWithOneNewline (s : String) : Prop :=
  s.data.getLast? = some '\n' ∧ ¬ (['\n', '\n'] <:+ s.data)

/-- No two adjacent newline characters. -/
def noNN (a b : Char) : Prop :=
  ¬ (a = '\n' ∧ b = '\n')

/-- A well-formed block of directive lines: a concatenation of lines, each
non-empty, newline-free, containing at least one non-whitespace character
and terminated by exactly one newline. -/
inductive GoodBlock : List Char → Prop where
  | nil : GoodBlock []
  | line (w rest : List Char) (hw : w ≠ []) (hnl : '\n' ∉ w)
      (hns : ∃ c ∈ w, pyIsSpace c = false) (h : GoodBlock rest) :
      GoodBlock (w ++ '\n' :: rest)

theorem GoodBlock.append {a b : List Char} (ha : GoodBlock a) (hb : GoodBlock b) :
    GoodBlock (a ++ b) := by
  induction ha with
  | nil => simpa using hb
  | line w rest hw hnl hns _ ih =>
    have : (w ++ '\n' :: rest) ++ b = w ++ '\n' :: (rest ++ b) := by simp
    rw [this]
    exact GoodBlock.line w (rest ++ b) hw hnl hns ih

theorem goodBlock_has_nonspace {g : List Char} (h : GoodBlock g) (hne : g ≠ []) :
    ∃ c ∈ g, pyIsSpace c = false := by
  cases h with
  | nil => exact absurd rfl hne
  | line w rest hw hnl hns _ =>
    obtain ⟨c, hc, hcs⟩ := hns
    exact ⟨c, List.mem_append_left _ hc, hcs⟩

theorem goodBlock_head_ne_newline {g : List Char} (h : GoodBlock g) (hne : g ≠ [])
    (c : Char) (hc : g.head? = some c) : c ≠ '\n' := by
  cases h with
  | nil => exact absurd rfl hne
  | line w rest hw hnl hns _ =>
    cases w with
    | nil => exact absurd rfl hw
    | cons x xs =>
      simp only [List.cons_append, List.head?_cons, Option.some.injEq] at hc
      intro hx
      apply hnl
      rw [hc, hx]
      exact List.mem_cons_self _ _

/-! ### Stripping lemmas -/

theorem mem_rstripCh {l : List Char} {c : Char} (h : c ∈ rstripCh l) : c ∈ l := by
  unfold rstripCh at h
  rw [List.mem_reverse] at h
  exact List.mem_reverse.mp ((List.dropWhile_sublist _).mem h)

theorem mem_lstripCh {l : List Char} {c : Char} (h : c ∈ lstripCh l) : c ∈ l :=
  (List.dropWhile_sublist _).mem h

theorem mem_pyStripCh {l : List Char} {c : Char} (h : c ∈ pyStripCh l) : c ∈ l :=
  mem_lstripCh (mem_rstripCh h)

theorem rstripCh_append_space (l : List Char) (c : Char) (hc : pyIsSpace c = true) :
    rstripCh (l ++ [c]) = rstripCh l := by
  unfold rstripCh
  simp [List.reverse_append, List.dropWhile_cons, hc]

theorem rstripCh_ne_nil {l : List Char} (h : ∃ c ∈ l, pyIsSpace c = false) :
    rstripCh l ≠ [] := by
  unfold rstripCh
  intro hcon
  rw [List.reverse_eq_nil_iff, List.dropWhile_eq_nil_iff] at hcon
  obtain ⟨c, hc, hcs⟩ := h
  have := hcon c (List.mem_reverse.mpr hc)
  rw [this] at hcs
  exact Bool.noConfusion hcs

theorem rstripCh_prefix (l : List Char) : rstripCh l <+: l := by
  unfold rstripCh
  have h1 : (l.reverse.dropWhile (fun c => pyIsSpace c)).reverse.reverse <:+ l.reverse := by
    simpa using List.dropWhile_suffix (l := l.reverse) (fun c => pyIsSpace c)
  exact List.reverse_suffix.mp h1

theorem rstripCh_append_of_ne (a b : List Char) (h : rstripCh b ≠ []) :
    rstripCh (a ++ b) = a ++ rstripCh b := by
  have hb : (b.reverse.dropWhile (fun c => pyIsSpace c)).isEmpty = false := by
    rcases hx : b.reverse.dropWhile (fun c => pyIsSpace c) with _ | ⟨y, ys⟩
    · exfalso
      apply h
      unfold rstripCh
      rw [hx]
      rfl
    · rfl
  unfold rstripCh
  rw [List.reverse_append, List.dropWhile_append, hb]
  simp

theorem lstripCh_of_head_nonspace {l : List Char}
    (h : ∀ c, l.head? = some c → pyIsSpace c = false) : lstripCh l = l := by
  cases l with
  | nil => rfl
  | cons c r =>
    unfold lstripCh
    rw [List.dropWhile_cons, h c rfl]
    simp

/-! ### Chain lemmas -/

theorem chain'_append_newline_free (w r : List Char) (hw : '\n' ∉ w)
    (hr : List.Chain' noNN r) : List.Chain' noNN (w ++ r) := by
  induction w with
  | nil => simpa using hr
  | cons c w' ih =>
    have hc : c ≠ '\n' := fun hh => hw (hh ▸ List.mem_cons_self c w')
    have hw' : '\n' ∉ w' := fun hh => hw (List.mem_cons_of_mem _ hh)
    rw [List.cons_append, List.chain'_cons']
    exact ⟨fun y _ hand => hc hand.1, ih hw'⟩

theorem chain'_not_infix_pair {l : List Char} (h : List.Chain' noNN l) :
    ¬ (['\n', '\n'] <:+: l) := by
  rintro ⟨s, t, rfl⟩
  rw [List.append_assoc] at h
  have h2 := (List.chain'_append.mp h).2.1
  have h3 : List.Chain' noNN ('\n' :: '\n' :: t) := h2
  exact (List.chain'_cons.mp h3).1 ⟨rfl, rfl⟩

/-- From an adjacency chain and a final newline, both claim-level
properties follow. -/
theorem chain'_claim_props {l : List Char} (hc : List.Chain' noNN l)
    (hl : l.getLast? = some '\n') :
    (¬ (['\n', '\n', '\n'] <:+: l) ∧ l.take 2 ≠ ['\n', '\n']) ∧
    (l.getLast? = some '\n' ∧ ¬ (['\n', '\n'] <:+ l)) := by
  have hpair := chain'_not_infix_pair hc
  refine ⟨⟨?_, ?_⟩, hl, ?_⟩
  · intro h3
    exact hpair (((by decide : (['\n', '\n'] : List Char) <+: ['\n', '\n', '\n']).isInfix).trans h3)
  · intro htake
    have := List.take_prefix 2 l
    rw [htake] at this
    exact hpair this.isInfix
  · intro hsuf
    exact hpair hsuf.isInfix

/-- Core lemma: right-stripping a newline-terminated good block and
re-appending one newline yields a newline-chain-free text whose first
character is the block's first character. -/
theorem stripped_block_chain :
    ∀ (g : List Char), GoodBlock g → g ≠ [] →
      List.Chain' noNN (rstripCh (g ++ ['\n']) ++ ['\n']) ∧
      (rstripCh (g ++ ['\n']) ++ ['\n']).head? = g.head? := by
  intro g hg
  induction hg with
  | nil => intro h; exact absurd rfl h
  | line w rest hw hnl hns hrest ih =>
    intro _
    by_cases hr0 : rest = []
    · subst hr0
      have e1 : (w ++ '\n' :: ([] : List Char)) ++ ['\n'] = (w ++ ['\n']) ++ ['\n'] := by simp
      rw [e1, rstripCh_append_space _ _ (by decide), rstripCh_append_space _ _ (by decide)]
      have hne : rstripCh w ≠ [] := rstripCh_ne_nil hns
      have hnl' : '\n' ∉ rstripCh w := fun hh => hnl (mem_rstripCh hh)
      constructor
      · exact chain'_append_newline_free _ ['\n'] hnl' (by simp)
      · rw [List.head?_append_of_ne_nil _ hne, List.head?_append_of_ne_nil _ hw]
        obtain ⟨t, ht⟩ := rstripCh_prefix w
        cases hw2 : rstripCh w with
        | nil => exact absurd hw2 hne
        | cons x xs =>
          rw [← ht, hw2]
          simp
    · have e1 : (w ++ '\n' :: rest) ++ ['\n'] = w ++ '\n' :: (rest ++ ['\n']) := by simp
      rw [e1]
      have hrs : rstripCh (rest ++ ['\n']) ≠ [] := by
        apply rstripCh_ne_nil
        obtain ⟨c, hc, hcs⟩ := goodBlock_has_nonspace hrest hr0
        exact ⟨c, List.mem_append_left _ hc, hcs⟩
      have e2 : w ++ '\n' :: (rest ++ ['\n']) = (w ++ ['\n']) ++ (rest ++ ['\n']) := by simp
      rw [e2, rstripCh_append_of_ne _ _ hrs]
      obtain ⟨ihc, ihh⟩ := ih hr0
      have e3 : ((w ++ ['\n']) ++ rstripCh (rest ++ ['\n'])) ++ ['\n']
          = w ++ '\n' :: (rstripCh (rest ++ ['\n']) ++ ['\n']) := by simp
      rw [e3]
      constructor
      · apply chain'_append_newline_free w _ hnl
        rw [List.chain'_cons']
        constructor
        · intro y hy
          rw [ihh] at hy
          have := goodBlock_head_ne_newline hrest hr0 y (Option.mem_def.mp hy)
          exact fun hand => this hand.2
        · exact ihc
      · rw [List.head?_append_of_ne_nil _ hw, List.head?_append_of_ne_nil _ hw]

/-! ### Components render as good blocks -/

/-- The head of a directive-joined component starts with the directive
prefix. -/
theorem pyJoin_cons_head (p z : String) (tl : List String) :
    ∃ r, (pyJoin "\n" ((z :: tl).map (fun f => p ++ f))).data = p.data ++ r := by
  cases tl with
  | nil => exact ⟨z.data, by simp [pyJoin, String.data_append]⟩
  | cons w tl2 =>
    refine ⟨z.data ++ '\n' :: (pyJoin "\n" ((w :: tl2).map (fun f => p ++ f))).data, ?_⟩
    simp [pyJoin, String.data_append, List.append_assoc]

/-- A component built by prefixing every element with a non-empty,
newline-free directive string and joining with newlines, then terminating
(`compTerm`), is a good block, provided the elements are newline-free. -/
theorem component_goodBlock (p : String) (l : List String)
    (hp1 : p.data ≠ []) (hpn : '\n' ∉ p.data)
    (hps : ∃ c ∈ p.data, pyIsSpace c = false)
    (hl : ∀ x ∈ l, '\n' ∉ x.data) :
    GoodBlock (compTerm (pyJoin "\n" (l.map (fun f => p ++ f)))).data := by
  induction l with
  | nil => exact GoodBlock.nil
  | cons x tl ih =>
    have hx : '\n' ∉ x.data := hl x (List.mem_cons_self _ _)
    have hl' : ∀ z ∈ tl, '\n' ∉ z.data := fun z hz => hl z (List.mem_cons_of_mem _ hz)
    have hw_ne : (p ++ x).data ≠ [] := by
      rw [String.data_append]
      intro hc
      exact hp1 (List.append_eq_nil.mp hc).1
    have hw_nl : '\n' ∉ (p ++ x).data := by
      rw [String.data_append]
      intro hc
      rcases List.mem_append.mp hc with h2 | h2
      · exact hpn h2
      · exact hx h2
    have hw_ns : ∃ c ∈ (p ++ x).data, pyIsSpace c = false := by
      obtain ⟨c, hc, hcs⟩ := hps
      exact ⟨c, by rw [String.data_append]; exact List.mem_append_left _ hc, hcs⟩
    cases tl with
    | nil =>
      rw [show pyJoin "\n" ((x :: []).map (fun f => p ++ f)) = p ++ x from rfl]
      have hne2 : (p ++ x) ≠ "" := fun hc => hw_ne (by rw [hc])
      simp only [compTerm, if_neg hne2]
      have hdata : ((p ++ x) ++ "\n").data = (p ++ x).data ++ '\n' :: [] := by
        simp [String.data_append]
      rw [hdata]
      exact GoodBlock.line _ [] hw_ne hw_nl hw_ns GoodBlock.nil
    | cons z tl' =>
      have hJhead := pyJoin_cons_head p z tl'
      obtain ⟨r, hr⟩ := hJhead
      have hJne : pyJoin "\n" ((z :: tl').map (fun f => p ++ f)) ≠ "" := by
        intro hc
        rw [hc] at hr
        have hr2 : ([] : List Char) = p.data ++ r := hr
        exact hp1 (List.append_eq_nil.mp hr2.symm).1
      have hJ : pyJoin "\n" ((x :: z :: tl').map (fun f => p ++ f))
          = (p ++ x) ++ "\n" ++ pyJoin "\n" ((z :: tl').map (fun f => p ++ f)) := rfl
      rw [hJ]
      have hAne : (p ++ x) ++ "\n" ++ pyJoin "\n" ((z :: tl').map (fun f => p ++ f)) ≠ "" := by
        intro hc
        have hd : ((p ++ x) ++ "\n" ++ pyJoin "\n" ((z :: tl').map (fun f => p ++ f))).data
            = [] := by rw [hc]
        rw [String.data_append, String.data_append] at hd
        exact hw_ne (List.append_eq_nil.mp (List.append_eq_nil.mp hd).1).1
      simp only [compTerm, if_neg hAne]
      have hdata : (((p ++ x) ++ "\n" ++ pyJoin "\n" ((z :: tl').map (fun f => p ++ f))) ++ "\n").data
          = (p ++ x).data
            ++ '\n' :: ((pyJoin "\n" ((z :: tl').map (fun f => p ++ f))).data ++ ['\n']) := by
        simp [String.data_append]
      rw [hdata]
      apply GoodBlock.line _ _ hw_ne hw_nl hw_ns
      have hIH := ih hl'
      have hCT : compTerm (pyJoin "\n" ((z :: tl').map (fun f => p ++ f)))
          = pyJoin "\n" ((z :: tl').map (fun f => p ++ f)) ++ "\n" := by
        unfold compTerm
        rw [if_neg hJne]
      rw [hCT, String.data_append] at hIH
      exact hIH

/-- The `nested_cfiles` component is a good block. -/
theorem cf_goodBlock (o : Option (List String))
    (h : ∀ l, o = some l → ∀ x ∈ l, '\n' ∉ x.data) :
    GoodBlock (compTerm (cfComponent o)).data := by
  cases o with
  | none => exact GoodBlock.nil
  | some l =>
    exact component_goodBlock "-c " l (by decide) (by decide)
      ⟨'-', by decide, by decide⟩ (h l rfl)

/-- The `nested_rfiles` component is a good block. -/
theorem rf_goodBlock (o : Option (List String))
    (h : ∀ l, o = some l → ∀ x ∈ l, '\n' ∉ x.data) :
    GoodBlock (compTerm (rfComponent o)).data := by
  cases o with
  | none => exact GoodBlock.nil
  | some l =>
    exact component_goodBlock "-r " l (by decide) (by decide)
      ⟨'-', by decide, by decide⟩ (h l rfl)

/-- The `extra_index_urls` component is a good block. -/
theorem ei_goodBlock (o : Option (List String))
    (h : ∀ l, o = some l → ∀ x ∈ l, '\n' ∉ x.data) :
    GoodBlock (compTerm (eiComponent o)).data := by
  cases o with
  | none => exact GoodBlock.nil
  | some l =>
    exact component_goodBlock "--extra-index-url " l (by decide) (by decide)
      ⟨'-', by decide, by decide⟩ (h l rfl)

/-- The `index_url` component is a good block. -/
theorem iu_goodBlock (o : Option String)
    (h : ∀ u, o = some u → '\n' ∉ u.data) :
    GoodBlock (compTerm (iuComponent o)).data := by
  cases o with
  | none => exact GoodBlock.nil
  | some u =>
    have hu := h u rfl
    have hne : ("--index-url " ++ pyStrip u) ≠ "" := by
      intro hc
      have hd : ("--index-url " ++ pyStrip u).data = [] := by rw [hc]
      rw [String.data_append] at hd
      exact absurd (List.append_eq_nil.mp hd).1 (by decide)
    simp only [iuComponent, compTerm, if_neg hne]
    have hdata : (("--index-url " ++ pyStrip u) ++ "\n").data
        = ("--index-url ".data ++ (pyStrip u).data) ++ '\n' :: [] := by
      simp [String.data_append]
    rw [hdata]
    apply GoodBlock.line _ [] ?_ ?_ ?_ GoodBlock.nil
    · intro hc
      exact absurd (List.append_eq_nil.mp hc).1 (by decide)
    · intro hc
      rcases List.mem_append.mp hc with h2 | h2
      · revert h2; decide
      · exact hu (mem_pyStripCh h2)
    · exact ⟨'-', List.mem_append_left _ (by decide), by decide⟩

/-! ### Scanning the default template -/

/-- One `strftime` step over a non-directive character. -/
theorem pyStrftimeCh_cons_ne (ts : List Char) (a : Char) (X : List Char)
    (ha : a ≠ '%') : pyStrftimeCh ts (a :: X) = a :: pyStrftimeCh ts X := by
  cases X with
  | nil => rfl
  | cons b X2 =>
    simp only [pyStrftimeCh]
    rw [if_neg (fun hand => ha hand.1)]

/-- `strftime` on a directive-free text is the identity. -/
theorem pyStrftimeCh_nopercent (ts : List Char) :
    ∀ w : List Char, '%' ∉ w → pyStrftimeCh ts w = w := by
  intro w
  induction w with
  | nil => intro _; rfl
  | cons c w' ih =>
    intro hw
    have hc : c ≠ '%' := fun hh => hw (hh ▸ List.mem_cons_self _ _)
    have hw' : '%' ∉ w' := fun hh => hw (List.mem_cons_of_mem _ hh)
    rw [pyStrftimeCh_cons_ne ts c w' hc, ih hw']

/-- `strftime` substitutes the timestamp at the `%c` directive, passing a
directive-free prefix through unchanged. -/
theorem pyStrftimeCh_insert (ts : List Char) :
    ∀ (w r : List Char), '%' ∉ w →
      pyStrftimeCh ts (w ++ '%' :: 'c' :: r) = w ++ ts ++ pyStrftimeCh ts r := by
  intro w
  induction w with
  | nil =>
    intro r _
    show pyStrftimeCh ts ('%' :: 'c' :: r) = ts ++ pyStrftimeCh ts r
    simp [pyStrftimeCh]
  | cons a w' ih =>
    intro r hw
    have ha : a ≠ '%' := fun hh => hw (hh ▸ List.mem_cons_self _ _)
    have hw' : '%' ∉ w' := fun hh => hw (List.mem_cons_of_mem _ hh)
    rw [List.cons_append, pyStrftimeCh_cons_ne ts a _ ha, ih r hw']
    simp [List.append_assoc]

/-- Exhausted fuel returns the remaining text unchanged. -/
theorem pyFormatFuel_zero (comps : String → String) (l : List Char) :
    pyFormatFuel comps 0 l = l := by
  cases l <;> rfl

/-- One `str.format` step over a non-brace character. -/
theorem pyFormatFuel_cons_ne (comps : String → String) (m : Nat) (a : Char)
    (X : List Char) (ha : a ≠ '\x7b') :
    pyFormatFuel comps (m + 1) (a :: X) = a :: pyFormatFuel comps m X := by
  simp only [pyFormatFuel]
  rw [if_neg ha]

/-- `str.format` passes a brace-free prefix through unchanged, consuming
fuel equal to its length. -/
theorem pyFormatFuel_passthrough (comps : String → String) :
    ∀ (w : List Char) (n : Nat) (r : List Char), '\x7b' ∉ w →
      pyFormatFuel comps n (w ++ r) = w ++ pyFormatFuel comps (n - w.length) r := by
  intro w
  induction w with
  | nil => intro n r _; simp
  | cons a w' ih =>
    intro n r hw
    have ha : a ≠ '\x7b' := fun hh => hw (hh ▸ List.mem_cons_self _ _)
    have hw' : '\x7b' ∉ w' := fun hh => hw (List.mem_cons_of_mem _ hh)
    cases n with
    | zero =>
      rw [pyFormatFuel_zero]
      simp [pyFormatFuel_zero]
    | succ m =>
      rw [List.cons_append, pyFormatFuel_cons_ne comps m a _ ha, ih m r hw']
      simp [Nat.succ_sub_succ]

set_option maxRecDepth 20000 in
/-- Decomposition of the rendered default header: the strftime-expanded,
format-substituted template is the two modelines, the banner line with the
timestamp, and the four terminated components, with a final newline, all
passed through `strip` and re-terminated. -/
theorem header_data_eq (index_url : Option String)
    (extra_index_urls nested_cfiles nested_rfiles : Option (List String)) (ts : String)
    (htb : '\x7b' ∉ ts.data) :
    (build_source_header none index_url extra_index_urls nested_cfiles nested_rfiles ts).data
      = pyStripCh
          ((("# -*- mode: requirementstxt -*-\n# vim: set ft=requirements\n# Generated by reqwire on ").data
            ++ ts.data)
            ++ '\n' :: ((compTerm (cfComponent nested_cfiles)).data
              ++ ((compTerm (rfComponent nested_rfiles)).data
                ++ ((compTerm (iuComponent index_url)).data
                  ++ ((compTerm (eiComponent extra_index_urls)).data ++ ['\n'])))))
        ++ ['\n'] := by
  have hdh : DEFAULT_HEADER.data
      = ("# -*- mode: requirementstxt -*-\n# vim: set ft=requirements\n# Generated by reqwire on ").data
        ++ '%' :: 'c'
          :: ('\n' :: ("\x7bnested_cfiles\x7d\x7bnested_rfiles\x7d\x7bindex_url\x7d\x7bextra_index_urls\x7d\n").data) := by
    rfl
  have hT : pyStrftimeCh ts.data DEFAULT_HEADER.data
      = (("# -*- mode: requirementstxt -*-\n# vim: set ft=requirements\n# Generated by reqwire on ").data
          ++ ts.data)
        ++ ('\n' :: ("\x7bnested_cfiles\x7d\x7bnested_rfiles\x7d\x7bindex_url\x7d\x7bextra_index_urls\x7d\n").data) := by
    rw [hdh, pyStrftimeCh_insert ts.data _ _ (by decide),
        pyStrftimeCh_nopercent ts.data _ (by decide)]
  have hbfree : '\x7b'
      ∉ ("# -*- mode: requirementstxt -*-\n# vim: set ft=requirements\n# Generated by reqwire on ").data
        ++ ts.data := by
    intro hmem
    rcases List.mem_append.mp hmem with h2 | h2
    · revert h2; decide
    · exact htb h2
  have hF : pyFormatFuel (headerComps index_url extra_index_urls nested_cfiles nested_rfiles)
        (pyStrftimeCh ts.data DEFAULT_HEADER.data).length
        (pyStrftimeCh ts.data DEFAULT_HEADER.data)
      = (("# -*- mode: requirementstxt -*-\n# vim: set ft=requirements\n# Generated by reqwire on ").data
          ++ ts.data)
        ++ '\n' :: ((compTerm (cfComponent nested_cfiles)).data
          ++ ((compTerm (rfComponent nested_rfiles)).data
            ++ ((compTerm (iuComponent index_url)).data
              ++ ((compTerm (eiComponent extra_index_urls)).data ++ ['\n'])))) := by
    rw [hT, pyFormatFuel_passthrough _ _ _ _ hbfree]
    congr 1
    rw [List.length_append, Nat.add_sub_cancel_left]
    rfl
  show (pyStrip
      (pyFormat (headerComps index_url extra_index_urls nested_cfiles nested_rfiles)
        (String.mk (pyStrftimeCh ts.data DEFAULT_HEADER.data))) ++ "\n").data = _
  rw [String.data_append]
  show pyStripCh
      (pyFormatFuel (headerComps index_url extra_index_urls nested_cfiles nested_rfiles)
        (pyStrftimeCh ts.data DEFAULT_HEADER.data).length
        (pyStrftimeCh ts.data DEFAULT_HEADER.data)) ++ ['\n'] = _
  rw [hF]

set_option maxRecDepth 20000 in
/-- Claim C6, as amended: for every combination of present/absent header
components, the output of `build_source_header` under the default template
contains no two consecutive blank lines and ends with exactly one trailing
newline, **provided** each collection element — and the index URL and the
rendered timestamp — is a non-empty string containing no newline (and the
timestamp contains no brace, which `str.format` would otherwise treat as a
placeholder).  The newline-freeness proviso is what the counterexample
forces; the timestamp hypotheses hold for every `strftime("%c")`
rendering. -/
theorem claim_C6_amended_header_layout (index_url : Option String)
    (extra_index_urls nested_cfiles nested_rfiles : Option (List String)) (ts : String)
    (hts : '\n' ∉ ts.data ∧ '\x7b' ∉ ts.data)
    (hiu : ∀ u, index_url = some u → '\n' ∉ u.data)
    (hcf : ∀ l, nested_cfiles = some l → ∀ x ∈ l, x ≠ "" ∧ '\n' ∉ x.data)
    (hrf : ∀ l, nested_rfiles = some l → ∀ x ∈ l, x ≠ "" ∧ '\n' ∉ x.data)
    (hei : ∀ l, extra_index_urls = some l → ∀ x ∈ l, x ≠ "" ∧ '\n' ∉ x.data) :
    noTwoConsecutiveBlankLines
        (build_source_header none index_url extra_index_urls nested_cfiles nested_rfiles ts) ∧
    endsWithOneNewline
        (build_source_header none index_url extra_index_urls nested_cfiles nested_rfiles ts) := by
  have hd := header_data_eq index_url extra_index_urls nested_cfiles nested_rfiles ts hts.2
  set GB := ("# -*- mode: requirementstxt -*-").data
      ++ '\n' :: (("# vim: set ft=requirements").data
        ++ '\n' :: ((("# Generated by reqwire on ").data ++ ts.data)
          ++ '\n' :: ((compTerm (cfComponent nested_cfiles)).data
            ++ ((compTerm (rfComponent nested_rfiles)).data
              ++ ((compTerm (iuComponent index_url)).data
                ++ (compTerm (eiComponent extra_index_urls)).data))))) with hGBdef
  have hre : (("# -*- mode: requirementstxt -*-\n# vim: set ft=requirements\n# Generated by reqwire on ").data
        ++ ts.data)
      ++ '\n' :: ((compTerm (cfComponent nested_cfiles)).data
        ++ ((compTerm (rfComponent nested_rfiles)).data
          ++ ((compTerm (iuComponent index_url)).data
            ++ ((compTerm (eiComponent extra_index_urls)).data ++ ['\n']))))
      = GB ++ ['\n'] := by
    rw [hGBdef]
    simp [List.append_assoc]
  have hGBne : GB ≠ [] := by
    rw [hGBdef]
    intro hc
    exact absurd (List.append_eq_nil.mp hc).1 (by decide)
  have hgb : GoodBlock GB := by
    rw [hGBdef]
    apply GoodBlock.line _ _ (by decide) (by decide) ⟨'#', by decide, by decide⟩
    apply GoodBlock.line _ _ (by decide) (by decide) ⟨'#', by decide, by decide⟩
    apply GoodBlock.line _ _ ?_ ?_ ?_
      (GoodBlock.append (cf_goodBlock nested_cfiles (fun l hl x hx => (hcf l hl x hx).2))
        (GoodBlock.append (rf_goodBlock nested_rfiles (fun l hl x hx => (hrf l hl x hx).2))
          (GoodBlock.append (iu_goodBlock index_url hiu)
            (ei_goodBlock extra_index_urls (fun l hl x hx => (hei l hl x hx).2)))))
    · intro hc
      exact absurd (List.append_eq_nil.mp hc).1 (by decide)
    · intro hc
      rcases List.mem_append.mp hc with h2 | h2
      · revert h2; decide
      · exact hts.1 h2
    · exact ⟨'#', List.mem_append_left _ (by decide), by decide⟩
  have hhead : ∀ c, (GB ++ ['\n']).head? = some c → pyIsSpace c = false := by
    intro c hc
    rw [List.head?_append_of_ne_nil _ hGBne, hGBdef,
        List.head?_append_of_ne_nil _ (by decide)] at hc
    have h2 : some '#' = some c := hc
    injection h2 with h3
    rw [← h3]
    decide
  have hps : pyStripCh (GB ++ ['\n']) = rstripCh (GB ++ ['\n']) := by
    unfold pyStripCh
    rw [lstripCh_of_head_nonspace hhead]
  rw [hre, hps] at hd
  obtain ⟨hchain, _⟩ := stripped_block_chain GB hgb hGBne
  have hlast : (rstripCh (GB ++ ['\n']) ++ ['\n']).getLast? = some '\n' :=
    List.getLast?_concat _
  have hprops := chain'_claim_props hchain hlast
  constructor
  · unfold noTwoConsecutiveBlankLines
    rw [hd]
    exact hprops.1
  · unfold endsWithOneNewline
    rw [hd]
    exact hprops.2

set_option maxRecDepth 40000 in
/-- Claim C6 as stated is false on the code: the claim quantifies over
every collection whose elements are non-empty strings, but an
`extra_index_urls` element containing newlines — here `"a\n\n\nb"`, a
non-empty string — makes the rendered header contain two consecutive
blank lines. -/
theorem claim_C6_counterexample :
    ¬ noTwoConsecutiveBlankLines
        (build_source_header none none (some ["a\n\n\nb"]) none none
          "Sun Oct 12 00:00:00 2026") := by
  unfold noTwoConsecutiveBlankLines
  decide

set_option maxRecDepth 40000 in
/-- Witness for the amended claim C6 at a concrete input exercising all
four components. -/
theorem claim_C6_amended_witness :
    noTwoConsecutiveBlankLines
        (build_source_header none (some "https://pypi.internal/simple")
          (some ["https://a/simple", "https://b/simple"])
          (some ["constraints.txt"]) (some ["common.in"])
          "Sun Oct 12 00:00:00 2026") ∧
    endsWithOneNewline
        (build_source_header none (some "https://pypi.internal/simple")
          (some ["https://a/simple", "https://b/simple"])
          (some ["constraints.txt"]) (some ["common.in"])
          "Sun Oct 12 00:00:00 2026") :=
  claim_C6_amended_header_layout (some "https://pypi.internal/simple")
    (some ["https://a/simple", "https://b/simple"])
    (some ["constraints.txt"]) (some ["common.in"])
    "Sun Oct 12 00:00:00 2026"
    (by decide)
    (by intro u hu; cases hu; decide)
    (by intro l hl; cases hl; decide)
    (by intro l hl; cases hl; decide)
    (by intro l hl; cases hl; decide)
